import Mathlib

/-!
Verification development for the FPGAG motion-controller core
(`src/FPGAG/core.py`): SPI command parser, transactional instruction
queue (write side), polynomial trajectory integrator, and dispatcher.

The hardware is written in nMigen.  Every `m.d.sync` assignment takes
effect at the next clock edge, so each module is embedded as a step
function `step : State -> Input -> State` in which every right-hand side
reads the *old* state.  Machine integers are modelled as `Nat`/`Int`;
where a register's width matters for the behaviour of reachable states
(the `bytesreceived` and `mtrcntr` counters, which nMigen gives the
width of `Signal(range(n))` and which wrap modulo a power of two) the
wrap is modelled explicitly with `% 2 ^ bitsFor _`.  The polynomial
accumulators are `Int` (the source asserts their bit width fits 64 bits
and the claims under study assume values stay within the signed width,
where two's-complement arithmetic agrees with `Int`).

Constants that live in `FPGAG/constants.py` (not part of the sources
under study) are carried as parameters: `wordBytes` (WORD_BYTES),
`bytesinmove` (platform.bytesinmove), `motors` (platform.motors),
`moveOpcode` (INSTRUCTIONS.MOVE) and the `shift` arguments (BIT_SHIFT).
The status-bit indices PARSING = 0, FULL = 1, DISPATCHERROR = 2 are
taken from the specification (`STATE` also lives in constants.py).
-/

namespace FPGAG

/-- Fuel-driven bit length: `bitsForAux fuel n` computes the bit length of `n` (fuel-driven so
that it reduces by kernel computation); `fuel ≥ n` suffices. -/
def bitsForAux : Nat → Nat → Nat
  | 0, _ => 0
  | fuel + 1, n => if n = 0 then 0 else bitsForAux fuel (n / 2) + 1

/-- Bit length of `n`, i.e. nMigen's `bits_for(n)`: the width of a
signal that must be able to hold `n`. -/
def bitsFor (n : Nat) : Nat := bitsForAux n n

/-- Reverse the low 8 bits of `n`: the value of the nMigen slice
`sig[::-1]` for an 8-bit signal `sig`. -/
def bitrev8 (n : Nat) : Nat :=
  (if n.testBit 0 then 128 else 0) + (if n.testBit 1 then 64 else 0) +
  (if n.testBit 2 then 32 else 0) + (if n.testBit 3 then 16 else 0) +
  (if n.testBit 4 then 8 else 0) + (if n.testBit 5 then 4 else 0) +
  (if n.testBit 6 then 2 else 0) + (if n.testBit 7 then 1 else 0)

/-- Bit `k` of the two's-complement representation of `x` (divisor is
positive, so `Int.ediv` is the arithmetic right shift). -/
def ibit (x : Int) (k : Nat) : Bool := x / 2 ^ k % 2 == 1

/-! ### Platform constants (`platform` object and `constants.py`) -/

structure Platform where
  motors : Nat
  wordBytes : Nat
  bytesinmove : Nat
  memdepth : Nat
deriving DecidableEq

/-- Queue words per instruction, `ceil(platform.bytesinmove / WORD_BYTES)`: the number of words
of one full instruction (core.py line 83). -/
def wordsPerInstr (P : Platform) : Nat :=
  (P.bytesinmove + P.wordBytes - 1) / P.wordBytes

/-! ### SPIParser (core.py lines 17-136) -/

/-- The SPI command opcodes (`COMMANDS` in constants.py; encodings are
irrelevant to the logic, which only compares for equality, so they are
modelled as an enumeration; `OTHERCMD` stands for any byte that matches
none of the named commands and so falls through every `Elif`). -/
inductive Cmd
  | EMPTY | START | STOP | WRITE | READ | POSITION | OTHERCMD
deriving DecidableEq

inductive PFsm
  | RESET | WAIT_COMMAND | WAIT_WORD | WRITE
deriving DecidableEq

/-- Registers of `SPIParser.elaborate`.  `stateParsing`, `stateFull`,
`stateDispatchError` are bits 0-2 of the 8-bit `state` register (bits
3-7 are never driven and stay 0). `wordToSend` is
`interface.word_to_send` (kept as `Int`, since the position registers
fed to it are signed). -/
structure ParserState where
  fsm : PFsm
  execute : Bool
  bytesreceived : Nat
  mtrcntr : Nat
  stateParsing : Bool
  stateFull : Bool
  stateDispatchError : Bool
  writeEn : Bool
  writeCommit : Bool
  writeData : Nat
  wordToSend : Int
deriving DecidableEq

/-- Per-tick inputs of the parser: the SPI command interface strobes,
the FIFO's `space_available`, and the dispatcher-driven signals. -/
structure ParserInput where
  commandReady : Bool
  command : Cmd
  wordComplete : Bool
  wordReceived : Nat
  spaceAvailable : Nat
  pinstate : Nat
  dispatcherror : Bool
  positions : Nat → Int

/-- The 8-bit `state` register as a number: PARSING at bit 0, FULL at
bit 1, DISPATCHERROR at bit 2 (bit indices taken from the spec's status
register layout; `STATE` itself is in constants.py, outside src). -/
def statusByte (s : ParserState) : Nat :=
  (if s.stateParsing then 1 else 0) + (if s.stateFull then 2 else 0) +
  (if s.stateDispatchError then 4 else 0)

/-- Reply word `Cat(state[::-1], self.pinstate[::-1])` (core.py line 95):
`Cat` places its first operand in the least significant bits, so the
reversed status byte is bits 0-7 and the reversed pin state bits 8-15. -/
def replyWord (s : ParserState) (pin : Nat) : Nat :=
  bitrev8 (statusByte s) + 256 * bitrev8 pin

/-- One clock edge of `SPIParser.elaborate` (core.py lines 55-136). -/
def parserStep (P : Platform) (s : ParserState) (i : ParserInput) : ParserState :=
  -- state register, updated on every clock (lines 80-84)
  let base : ParserState :=
    { s with
      stateParsing := s.execute,
      stateFull := decide (i.spaceAvailable < wordsPerInstr P),
      stateDispatchError := i.dispatcherror }
  match s.fsm with
  | .RESET =>
      { base with execute := false, bytesreceived := 0, fsm := .WAIT_COMMAND }
  | .WAIT_COMMAND =>
      let base := { base with writeCommit := false }
      if i.commandReady then
        match i.command with
        | .EMPTY => base
        | .START => { base with execute := true }
        | .STOP => { base with execute := false }
        | .WRITE =>
            let base := { base with wordToSend := (replyWord s i.pinstate : Int) }
            if s.stateFull = false ∨ s.bytesreceived ≠ 0 then
              { base with fsm := .WAIT_WORD }
            else base
        | .READ => { base with wordToSend := (replyWord s i.pinstate : Int) }
        | .POSITION =>
            { base with
              mtrcntr :=
                if s.mtrcntr < P.motors then
                  (s.mtrcntr + 1) % 2 ^ bitsFor (P.motors - 1)
                else 0,
              wordToSend := i.positions s.mtrcntr }
        | .OTHERCMD => base
      else base
  | .WAIT_WORD =>
      if i.wordComplete then
        { base with
          writeEn := true,
          bytesreceived := (s.bytesreceived + P.wordBytes) % 2 ^ bitsFor P.bytesinmove,
          writeData := i.wordReceived,
          fsm := .WRITE }
      else base
  | .WRITE =>
      let base := { base with writeEn := false, fsm := .WAIT_COMMAND }
      if P.bytesinmove ≤ s.bytesreceived then
        { base with bytesreceived := 0, writeCommit := true }
      else base

/-- Reset values of the parser registers (nMigen signals reset to 0). -/
def parserReset : ParserState :=
  { fsm := .RESET, execute := false, bytesreceived := 0, mtrcntr := 0,
    stateParsing := false, stateFull := false, stateDispatchError := false,
    writeEn := false, writeCommit := false, writeData := 0, wordToSend := 0 }

/-- An input tick with nothing asserted and `space_available = sp`. -/
def baseIn (sp : Nat) : ParserInput :=
  { commandReady := false, command := .EMPTY, wordComplete := false,
    wordReceived := 0, spaceAvailable := sp, pinstate := 0,
    dispatcherror := false, positions := fun _ => 0 }

/-- An input tick presenting command `c`. -/
def cmdIn (c : Cmd) (sp : Nat) : ParserInput :=
  { baseIn sp with commandReady := true, command := c }

/-- An input tick presenting a completed payload word `w`. -/
def wordIn (w : Nat) (sp : Nat) : ParserInput :=
  { baseIn sp with wordComplete := true, wordReceived := w }

/-! ### Write side of the transactional FIFO

Modelled from the spec: the `TransactionalizedFIFO` comes from the luna
library and is not among the sources under study; per the spec's queue
contract, words written while `write_en` is asserted are staged, and
`write_commit` makes all words staged since the last commit visible
atomically. -/

structure Fifo where
  committed : List Nat
  staged : List Nat
deriving DecidableEq

/-- Modelled from the spec: one clock of the FIFO's write port, seeing
the parser's registered outputs `write_en`, `write_data`,
`write_commit` during this cycle. -/
def fifoWriteStep (f : Fifo) (en : Bool) (data : Nat) (commit : Bool) : Fifo :=
  let st := if en then f.staged ++ [data] else f.staged
  if commit then { committed := f.committed ++ st, staged := [] }
  else { committed := f.committed, staged := st }

/-- Parser composed with the FIFO write port: the FIFO samples the
parser's current register values while the parser advances. -/
def pfStep (P : Platform) (pf : ParserState × Fifo) (i : ParserInput) :
    ParserState × Fifo :=
  (parserStep P pf.1 i, fifoWriteStep pf.2 pf.1.writeEn pf.1.writeData pf.1.writeCommit)

/-- Run the composed parser/FIFO over a list of input ticks. -/
def pfRun (P : Platform) (pf : ParserState × Fifo) (is : List ParserInput) :
    ParserState × Fifo :=
  is.foldl (pfStep P) pf

/-- The trace of states reached after each input tick (the starting
state excluded). -/
def pfTrace (P : Platform) : ParserState × Fifo → List ParserInput →
    List (ParserState × Fifo)
  | _, [] => []
  | pf, i :: is =>
      let pf1 := pfStep P pf i
      pf1 :: pfTrace P pf1 is

/-- The three input ticks that deliver one WRITE payload word: the
command, the payload word, and one idle tick during which the parser
passes through its WRITE state. -/
def ticksFor (sp : Nat) : List Nat → List ParserInput
  | [] => []
  | w :: ws => cmdIn .WRITE sp :: wordIn w sp :: baseIn sp :: ticksFor sp ws

/-! ### Polynomal (core.py lines 139-260)

One axis owns three finite-difference accumulators
`cntrs[motor*3]`, `cntrs[motor*3+1]`, `cntrs[motor*3+2]`
(`self.order = DEGREE = 3`). -/

structure Axis3 where
  acc1 : Int
  acc2 : Int
  acc3 : Int
deriving DecidableEq

/-- The RUNNING-state finite-difference update of one axis for one
real-time tick, with coefficients `(a, b, c)` (core.py lines 242-252):
`op3 = 3*2*c + acc3`, `op2 = acc3 + 2*b + acc2`,
`op1 = c + b + a + acc3 + acc2 + acc1`, all reading old values. -/
def axisUpdate (a b c : Int) (t : Axis3) : Axis3 :=
  { acc1 := c + b + a + t.acc3 + t.acc2 + t.acc1,
    acc2 := t.acc3 + 2 * b + t.acc2,
    acc3 := 3 * 2 * c + t.acc3 }

/-- Step output `self.step[motor] = cntrs[motor*order][BIT_SHIFT]` (core.py lines
208-209): the step output is the value of bit `shift` of the position
accumulator. -/
def stepOut (shift : Nat) (t : Axis3) : Bool := ibit t.acc1 shift

/-- Total-steps output `self.totalsteps[motor] = cntrs[motor*order] >> (BIT_SHIFT+1)`
(core.py lines 210-211), an arithmetic shift of the signed
accumulator. -/
def totalstepsOut (shift : Nat) (t : Axis3) : Int :=
  Int.ediv t.acc1 (2 ^ (shift + 1))

inductive PolyFsm
  | RESET | WAIT_START | RUNNING
deriving DecidableEq

structure PolyState where
  fsm : PolyFsm
  cntr : Nat
  ticks : Nat
  busy : Bool
  finished : Bool
  axes : List Axis3
  counterD : List Int
  dirs : List Bool
deriving DecidableEq

/-- Inputs of the Polynomal module: `start`, `ticklimit` and the
coefficient registers, all driven by the Dispatcher. -/
structure PolyInput where
  start : Bool
  ticklimit : Nat
  coeffs : List (Int × Int × Int)
deriving DecidableEq

structure PolyParams where
  divider : Nat
deriving DecidableEq

/-- One clock edge of `Polynomal.elaborate` (core.py lines 186-260).
The direction registers (lines 213-222) update on every clock from the
old `counter_d`/`cntrs`; inside the FSM, the WAIT_START `start` branch
overrides `counter_d` with 0 (in nMigen the later `m.d.sync`
assignment wins). -/
def polyStep (P : PolyParams) (s : PolyState) (i : PolyInput) : PolyState :=
  let counterD1 := s.axes.map (fun t => t.acc1)
  let dirs1 := (List.zip (List.zip s.counterD s.axes) s.dirs).map
      (fun p => if p.1.2.acc1 < p.1.1 then false
                else if p.1.1 < p.1.2.acc1 then true else p.2)
  let base := { s with counterD := counterD1, dirs := dirs1 }
  match s.fsm with
  | .RESET => { base with busy := false, finished := false, fsm := .WAIT_START }
  | .WAIT_START =>
      if i.start then
        { base with
          axes := s.axes.map (fun t => { t with acc1 := 0 }),
          counterD := s.counterD.map (fun _ => 0),
          busy := true, finished := false, fsm := .RUNNING }
      else { base with finished := false }
  | .RUNNING =>
      if s.ticks < i.ticklimit ∧ P.divider - 1 ≤ s.cntr then
        { base with
          ticks := s.ticks + 1, cntr := 0,
          axes := List.zipWith
            (fun (co : Int × Int × Int) t => axisUpdate co.1 co.2.1 co.2.2 t)
            i.coeffs s.axes }
      else if s.ticks < i.ticklimit then { base with cntr := s.cntr + 1 }
      else
        { base with ticks := 0, busy := false, finished := true,
                    fsm := .WAIT_START }

/-! ### Dispatcher (core.py lines 263-355) -/

inductive DFsm
  | RESET | WAIT_INSTRUCTION | PARSEHEAD | MOVE_POLYNOMAL | ERROR
deriving DecidableEq

/-- Registers of the Dispatcher FSM.  `startPol` drives
`polynomal.start`; `dispatcherror` drives `parser.dispatcherror`;
`coeffs` are the raw queue words loaded into the integrator's
coefficient registers. -/
structure DispState where
  fsm : DFsm
  readEn : Bool
  readCommit : Bool
  dispatcherror : Bool
  startPol : Bool
  ticklimit : Nat
  coeffcnt : Nat
  coeffs : List Nat
deriving DecidableEq

/-- Per-tick inputs of the Dispatcher FSM: the parser's FIFO read
data/empty flag, the execute flag, and the integrator's busy flag. -/
structure DispInput where
  readData : Nat
  empty : Bool
  execute : Bool
  busy : Bool
deriving DecidableEq

structure DispParams where
  motors : Nat
  moveOpcode : Nat
deriving DecidableEq

/-- Coefficient words per MOVE: `len(polynomal.coeff) = motors * 3`. -/
def numCoeffs (P : DispParams) : Nat := P.motors * 3

/-- One clock edge of the `dispatcher` FSM (core.py lines 321-354).
`read_data[:8]` is `readData % 256` and `read_data[8:]` is
`readData / 256`. -/
def dispStep (P : DispParams) (s : DispState) (i : DispInput) : DispState :=
  match s.fsm with
  | .RESET => { s with fsm := .WAIT_INSTRUCTION }
  | .WAIT_INSTRUCTION =>
      let s1 := { s with readCommit := false, startPol := false }
      if i.empty = false ∧ i.execute = true ∧ i.busy = false then
        { s1 with readEn := true, fsm := .PARSEHEAD }
      else s1
  | .PARSEHEAD =>
      if i.readData % 256 = P.moveOpcode then
        { s with ticklimit := i.readData / 256, readEn := false,
                 coeffcnt := 0, fsm := .MOVE_POLYNOMAL }
      else { s with fsm := .ERROR, dispatcherror := true }
  | .MOVE_POLYNOMAL =>
      if s.readEn = false then { s with readEn := true }
      else if s.coeffcnt < numCoeffs P then
        { s with coeffs := s.coeffs.set s.coeffcnt i.readData,
                 coeffcnt := s.coeffcnt + 1, readEn := false }
      else
        { s with fsm := .WAIT_INSTRUCTION, startPol := true,
                 readCommit := true, readEn := false }
  | .ERROR => s

/-- Reset values of the dispatcher registers. -/
def dispReset (P : DispParams) : DispState :=
  { fsm := .RESET, readEn := false, readCommit := false,
    dispatcherror := false, startPol := false, ticklimit := 0,
    coeffcnt := 0, coeffs := List.replicate (numCoeffs P) 0 }

/-- Run the dispatcher over a list of input ticks. -/
def dispRun (P : DispParams) (s : DispState) (is : List DispInput) : DispState :=
  is.foldl (dispStep P) s

/-- States of the dispatcher reachable from reset. -/
inductive dispReach (P : DispParams) : DispState → Prop
  | init : dispReach P (dispReset P)
  | step {s : DispState} (h : dispReach P s) (i : DispInput) :
      dispReach P (dispStep P s i)

/-! ### A small concrete platform used by the concrete theorems:
3 motors, 4-byte words, 8 bytes per instruction (2 queue words),
memory depth 16. -/

def testPlatform : Platform := ⟨3, 4, 8, 16⟩

/-! ## C1: the RUNNING update evaluates the cubic exactly -/

/-- Closed form of the three accumulators after `n` RUNNING real-time
ticks from zeroed accumulators. -/
lemma axisUpdate_iterate (a b c : Int) : ∀ n : Nat,
    (axisUpdate a b c)^[n] ⟨0, 0, 0⟩ =
      ⟨a * n + b * (n : Int) ^ 2 + c * (n : Int) ^ 3,
       2 * b * n + 3 * c * (n : Int) ^ 2 - 3 * c * n,
       6 * c * n⟩
  | 0 => by norm_num
  | n + 1 => by
      rw [Function.iterate_succ_apply', axisUpdate_iterate a b c n]
      simp only [axisUpdate, Axis3.mk.injEq]
      push_cast
      refine ⟨by ring, by ring, by ring⟩

/-- C1: running the integrator's RUNNING-state per-axis update for
`T` real-time ticks from zeroed accumulators makes the position
accumulator equal `a*T + b*T^2 + c*T^3` exactly, so the reported
`totalsteps` output equals that polynomial value arithmetically shifted
right by `BIT_SHIFT + 1`. -/
theorem C1_move_total_steps (shift : Nat) (a b c : Int) (T : Nat) :
    ((axisUpdate a b c)^[T] ⟨0, 0, 0⟩).acc1 =
      a * T + b * (T : Int) ^ 2 + c * (T : Int) ^ 3 ∧
    totalstepsOut shift ((axisUpdate a b c)^[T] ⟨0, 0, 0⟩) =
      Int.ediv (a * T + b * (T : Int) ^ 2 + c * (T : Int) ^ 3)
        (2 ^ (shift + 1)) := by
  rw [axisUpdate_iterate]
  exact ⟨rfl, rfl⟩

/-! ## C4: the FULL status bit ignores the bytes-received counter -/

def c4State : ParserState :=
  { parserReset with fsm := .WAIT_COMMAND, bytesreceived := 4 }

def c4Input : ParserInput := baseIn 0

/-- C4 counterexample: with a partial instruction in progress
(`bytesreceived = 4 ≠ 0`) and `space_available = 0` below the 2-word
instruction size, the FULL bit still registers as true on the next
tick, contradicting the claim that FULL reads false whenever a partial
instruction is being written. -/
theorem C4_counterexample :
    (parserStep testPlatform c4State c4Input).stateFull = true ∧
    c4State.bytesreceived ≠ 0 := by decide

/-- C4 amended: at every tick, the next value of the FULL status
bit is exactly `space_available < ceil(bytesinmove / WORD_BYTES)`
computed from that tick's input; the bytes-received counter plays no
part in it (the mid-instruction exemption lives only in the WRITE
acceptance test of claim C5). -/
theorem C4_full_bit_registered (P : Platform) (s : ParserState) (i : ParserInput) :
    (parserStep P s i).stateFull = decide (i.spaceAvailable < wordsPerInstr P) := by
  cases hf : s.fsm <;> cases hc : i.command <;>
    simp [parserStep, hf, hc] <;> split_ifs <;> rfl

/-! ## C6: the POSITION round-robin counter overshoots the last axis -/

/-- A POSITION command tick whose position inputs hold the axis index
itself, so the reply records which axis register was read. -/
def posIn (sp : Nat) : ParserInput :=
  { baseIn sp with
    commandReady := true,
    command := .POSITION,
    positions := fun k => (k : Int) }

def c6s0 : ParserState := { parserReset with fsm := .WAIT_COMMAND }

def c6Step (s : ParserState) : ParserState := parserStep testPlatform s (posIn 9)

/-- C6 code bug: with 3 motors, five consecutive POSITION
commands starting from the reset counter reply with position indices
0, 1, 2, 3, 0: the counter `mtrcntr` only wraps after reaching
`motors` itself (`mtrcntr < platform.motors` is still true at
`motors - 1`), so the fourth query reads `position[3]`, one past the
last axis of the 3-entry array, and the cycle has length 4, not 3.
The (N+1)-th query therefore does not return the same axis as the
first. -/
theorem C6_roundrobin_overshoot :
    (c6Step c6s0).wordToSend = 0 ∧
    (c6Step (c6Step c6s0)).wordToSend = 1 ∧
    (c6Step (c6Step (c6Step c6s0))).wordToSend = 2 ∧
    (c6Step (c6Step (c6Step (c6Step c6s0)))).wordToSend = 3 ∧
    (c6Step (c6Step (c6Step (c6Step (c6Step c6s0))))).wordToSend = 0 ∧
    ¬(3 < testPlatform.motors) ∧
    (c6Step (c6Step (c6Step (c6Step c6s0)))).wordToSend ≠
      (c6Step c6s0).wordToSend := by decide

/-! ## C7: layout of the status/pin reply word -/

def c7State : ParserState :=
  { parserReset with fsm := .WAIT_COMMAND, stateFull := true }

def c7Input : ParserInput := cmdIn .READ 5

/-- C7 counterexample: with only the FULL status bit set and all
pins low, the READ reply word is `bitrev8 2 = 64`: the reversed status
byte sits in the low-order bits (`Cat` puts its first operand lowest),
not in the high-order bits as the claim states (which would give
`256 * 64 = 16384`). -/
theorem C7_counterexample :
    (parserStep testPlatform c7State c7Input).wordToSend = 64 ∧
    (64 : Int) ≠
      ((bitrev8 c7Input.pinstate + 256 * bitrev8 (statusByte c7State) : Nat) : Int) := by
  decide

/-- C7 amended: the STATUS/READ reply word carries the
bit-reversed 8-bit status register {bit0 = PARSING, bit1 = FULL,
bit2 = DISPATCHERROR, bits 3-7 reserved} in its LOW-order bits and the
bit-reversed 8-bit pin state in bits 8-15, and the READ command has no
side effect on the parser registers (the FSM stays in WAIT_COMMAND and
only the reply register and the per-tick status register change). -/
theorem C7_reply_layout (P : Platform) (s : ParserState) (i : ParserInput)
    (hf : s.fsm = .WAIT_COMMAND) (hr : i.commandReady = true)
    (hc : i.command = .READ) :
    (parserStep P s i).wordToSend =
      ((bitrev8 (statusByte s) + 256 * bitrev8 i.pinstate : Nat) : Int) ∧
    (parserStep P s i).fsm = .WAIT_COMMAND ∧
    (parserStep P s i).bytesreceived = s.bytesreceived ∧
    (parserStep P s i).execute = s.execute ∧
    (parserStep P s i).mtrcntr = s.mtrcntr ∧
    (parserStep P s i).writeEn = s.writeEn ∧
    (parserStep P s i).writeData = s.writeData ∧
    (parserStep P s i).writeCommit = false := by
  simp [parserStep, hf, hr, hc, replyWord]

/-- Witness for C7 (amended) at a concrete state and input. -/
theorem C7_reply_layout_witness :
    (parserStep testPlatform c7State c7Input).wordToSend =
      ((bitrev8 (statusByte c7State) + 256 * bitrev8 c7Input.pinstate : Nat) : Int) ∧
    (parserStep testPlatform c7State c7Input).fsm = .WAIT_COMMAND ∧
    (parserStep testPlatform c7State c7Input).bytesreceived = c7State.bytesreceived ∧
    (parserStep testPlatform c7State c7Input).execute = c7State.execute ∧
    (parserStep testPlatform c7State c7Input).mtrcntr = c7State.mtrcntr ∧
    (parserStep testPlatform c7State c7Input).writeEn = c7State.writeEn ∧
    (parserStep testPlatform c7State c7Input).writeData = c7State.writeData ∧
    (parserStep testPlatform c7State c7Input).writeCommit = false :=
  C7_reply_layout testPlatform c7State c7Input rfl rfl rfl

/-! ## C8: what the WAIT_START `start` branch actually clears -/

def c8State : PolyState :=
  { fsm := .WAIT_START, cntr := 0, ticks := 0, busy := false,
    finished := false, axes := [⟨3, 5, 7⟩], counterD := [3], dirs := [false] }

def c8Input : PolyInput := { start := true, ticklimit := 4, coeffs := [(1, 0, 0)] }

/-- C8 counterexample: receiving `start` in WAIT_START with
residual accumulators `(3, 5, 7)` enters RUNNING with accumulators
`(0, 5, 7)`: only the position accumulator is zeroed, the first- and
second-difference accumulators keep their values from the previous
move, contradicting the claim that all three are reset. -/
theorem C8_counterexample :
    (polyStep ⟨50⟩ c8State c8Input).fsm = .RUNNING ∧
    (polyStep ⟨50⟩ c8State c8Input).axes = [⟨0, 5, 7⟩] ∧
    (polyStep ⟨50⟩ c8State c8Input).axes ≠ [⟨0, 0, 0⟩] := by decide

/-- C8 amended: on `start` in WAIT_START the integrator zeroes
each axis's position accumulator (`cntrs[motor*order]`) and the
direction-compare register `counter_d`, raises `busy`, clears
`finished` and enters RUNNING; the velocity and acceleration
accumulators are NOT cleared, so residual higher-order state from a
previous move can influence the next move's trajectory. -/
theorem C8_start_clears_position (P : PolyParams) (s : PolyState) (i : PolyInput)
    (hf : s.fsm = .WAIT_START) (hs : i.start = true) :
    (polyStep P s i).fsm = .RUNNING ∧
    (polyStep P s i).busy = true ∧
    (polyStep P s i).finished = false ∧
    (polyStep P s i).axes = s.axes.map (fun t => { t with acc1 := 0 }) ∧
    (polyStep P s i).counterD = s.counterD.map (fun _ => 0) := by
  simp [polyStep, hf, hs]

/-- Witness for C8 (amended) at a concrete state and input. -/
theorem C8_start_clears_position_witness :
    (polyStep ⟨50⟩ c8State c8Input).fsm = .RUNNING ∧
    (polyStep ⟨50⟩ c8State c8Input).busy = true ∧
    (polyStep ⟨50⟩ c8State c8Input).finished = false ∧
    (polyStep ⟨50⟩ c8State c8Input).axes =
      c8State.axes.map (fun t => { t with acc1 := 0 }) ∧
    (polyStep ⟨50⟩ c8State c8Input).counterD = c8State.counterD.map (fun _ => 0) :=
  C8_start_clears_position ⟨50⟩ c8State c8Input rfl rfl

/-! ## C9: the step output is a level, not a toggle detector -/

def c9State : PolyState :=
  { fsm := .RUNNING, cntr := 49, ticks := 0, busy := true,
    finished := false, axes := [⟨1, 0, 0⟩], counterD := [1], dirs := [false] }

def c9Input : PolyInput := { start := false, ticklimit := 4, coeffs := [(2, 0, 0)] }

/-- C9 counterexample: a RUNNING real-time tick taking the position
accumulator from 1 to 3 (BIT_SHIFT = 0): bit 0 is set before and after
the tick, i.e. it does not toggle, yet the step output is true after
the tick — the output is the bit itself, not a transition detector, so
"step is true exactly when the bit toggles" is false. -/
theorem C9_counterexample :
    (polyStep ⟨50⟩ c9State c9Input).axes = [⟨3, 0, 0⟩] ∧
    stepOut 0 ⟨3, 0, 0⟩ = true ∧
    ibit (3 : Int) 0 = ibit (1 : Int) 0 := by decide

/-- C9 amended: the per-axis step output is the VALUE of bit
`BIT_SHIFT` of the position accumulator (a level signal); one full
integer displacement unit (`2 ^ BIT_SHIFT` in pre-shifted accumulator
counts) flips that bit, so each unit of displacement toggles the step
line once (one physical step per toggle). -/
theorem C9_step_is_bit_level (shift : Nat) (x p q : Int) :
    stepOut shift ⟨x, p, q⟩ = ibit x shift ∧
    ibit (x + 2 ^ shift) shift = !ibit x shift := by
  refine ⟨rfl, ?_⟩
  have h2 : (2 : Int) ^ shift ≠ 0 := by positivity
  have key : (x + 2 ^ shift) / 2 ^ shift = x / 2 ^ shift + 1 := by
    conv_lhs => rw [show x + 2 ^ shift = x + 1 * 2 ^ shift by ring]
    exact Int.add_mul_ediv_right _ _ h2
  unfold ibit
  rw [key]
  generalize x / 2 ^ shift = d
  rcases Int.emod_two_eq d with h | h
  · have h1 : (d + 1) % 2 = 1 := by omega
    rw [h1, h]
    decide
  · have h1 : (d + 1) % 2 = 0 := by omega
    rw [h1, h]
    decide

/-! ## Dispatcher invariants, C3 and C10 -/

/-- Inductive invariant of the dispatcher FSM: the commit/start pulses
are low except in the one cycle after a completed coefficient load, the
ERROR state keeps the sticky error bit high, and the coefficient
counter never exceeds the per-move coefficient count. -/
def dispInv (P : DispParams) (s : DispState) : Prop :=
  (s.fsm = .RESET → s.readCommit = false ∧ s.startPol = false) ∧
  (s.fsm = .PARSEHEAD → s.readCommit = false ∧ s.startPol = false) ∧
  (s.fsm = .MOVE_POLYNOMAL → s.readCommit = false) ∧
  (s.fsm = .ERROR →
    s.readCommit = false ∧ s.startPol = false ∧ s.dispatcherror = true) ∧
  s.coeffcnt ≤ numCoeffs P

lemma dispInv_reset (P : DispParams) : dispInv P (dispReset P) := by
  simp [dispInv, dispReset]

lemma dispInv_step (P : DispParams) (s : DispState) (i : DispInput)
    (h : dispInv P s) : dispInv P (dispStep P s i) := by
  obtain ⟨h1, h2, h3, h4, h5⟩ := h
  cases hf : s.fsm
  · simp_all [dispStep, dispInv, hf]
  · simp only [dispStep, hf]
    split_ifs <;> simp_all [dispInv]
  · simp only [dispStep, hf]
    split_ifs <;> simp_all [dispInv]
  · simp only [dispStep, hf]
    split_ifs with ha hb <;> simp_all [dispInv] <;> omega
  · simp_all [dispStep, dispInv, hf]

lemma dispReach_inv (P : DispParams) (s : DispState) (h : dispReach P s) :
    dispInv P s := by
  induction h with
  | init => exact dispInv_reset P
  | step _ i ih => exact dispInv_step _ _ _ ih

lemma dispStep_error (P : DispParams) (s : DispState) (i : DispInput)
    (h : s.fsm = .ERROR) : dispStep P s i = s := by
  simp [dispStep, h]

lemma dispRun_error (P : DispParams) (s : DispState) (h : s.fsm = .ERROR) :
    ∀ ins : List DispInput, dispRun P s ins = s
  | [] => rfl
  | i :: ins => by
      show dispRun P (dispStep P s i) ins = s
      rw [dispStep_error P s i h]
      exact dispRun_error P s h ins

/-- C3: in every reachable execution, once the dispatcher reads an
instruction whose header opcode (first word's low byte) is not MOVE, it
enters ERROR; from then on, under every further input sequence, the
state stays ERROR, the sticky DISPATCHERROR bit stays set, and neither
`polynomal.start` nor `parser.read_commit` is ever asserted again (no
instruction is consumed from the queue or dispatched to the
integrator). -/
theorem C3_error_state_terminal (P : DispParams) (s : DispState) (i : DispInput)
    (hre : dispReach P s) (hps : s.fsm = .PARSEHEAD)
    (hbad : i.readData % 256 ≠ P.moveOpcode) (ins : List DispInput) :
    (dispRun P (dispStep P s i) ins).fsm = .ERROR ∧
    (dispRun P (dispStep P s i) ins).dispatcherror = true ∧
    (dispRun P (dispStep P s i) ins).startPol = false ∧
    (dispRun P (dispStep P s i) ins).readCommit = false := by
  obtain ⟨-, h2, -, -, -⟩ := dispReach_inv P s hre
  obtain ⟨hrc, hsp⟩ := h2 hps
  have hstep : dispStep P s i = { s with fsm := .ERROR, dispatcherror := true } := by
    simp [dispStep, hps, hbad]
  rw [hstep, dispRun_error P _ rfl ins]
  exact ⟨rfl, rfl, hsp, hrc⟩

/-- Concrete dispatcher platform for the witnesses: 3 motors,
MOVE opcode 1. -/
def dP : DispParams := ⟨3, 1⟩

/-- Input presenting a non-empty queue with execute enabled. -/
def dGo : DispInput := ⟨0, false, true, false⟩

/-- Input presenting queue word 7, whose low byte 7 is not the MOVE
opcode. -/
def dBad : DispInput := ⟨7, false, true, false⟩

/-- The reachable state two steps from reset: WAIT_INSTRUCTION took the
read branch and the FSM sits in PARSEHEAD. -/
def c3s2 : DispState := dispStep dP (dispStep dP (dispReset dP) dGo) dGo

lemma c3s2_reach : dispReach dP c3s2 :=
  dispReach.step (dispReach.step dispReach.init dGo) dGo

/-- Witness for C3 at a concrete reachable state, bad opcode 7 and a
concrete further input sequence. -/
theorem C3_error_state_terminal_witness :
    (dispRun dP (dispStep dP c3s2 dBad) [dGo, dBad]).fsm = .ERROR ∧
    (dispRun dP (dispStep dP c3s2 dBad) [dGo, dBad]).dispatcherror = true ∧
    (dispRun dP (dispStep dP c3s2 dBad) [dGo, dBad]).startPol = false ∧
    (dispRun dP (dispStep dP c3s2 dBad) [dGo, dBad]).readCommit = false :=
  C3_error_state_terminal dP c3s2 dBad c3s2_reach (by decide) (by decide) [dGo, dBad]

/-- C10: in every reachable state, the queue's read-commit is
pulsed only out of MOVE_POLYNOMAL once all `motors * 3` coefficient
words of a valid MOVE have been loaded (`coeffcnt = motors * 3` with
the read path idle); and on the unknown-opcode path out of PARSEHEAD
the read-commit stays low forever, so the committed queue state is
unchanged by the failed dispatch. -/
theorem C10_commit_needs_full_load (P : DispParams) (s : DispState)
    (hre : dispReach P s) (i : DispInput) :
    ((dispStep P s i).readCommit = true →
      s.fsm = .MOVE_POLYNOMAL ∧ s.readEn = true ∧ s.coeffcnt = numCoeffs P) ∧
    (s.fsm = .PARSEHEAD → i.readData % 256 ≠ P.moveOpcode →
      ∀ ins : List DispInput, (dispRun P (dispStep P s i) ins).readCommit = false) := by
  obtain ⟨h1, h2, h3, h4, h5⟩ := dispReach_inv P s hre
  constructor
  · intro hc
    cases hf : s.fsm
    · rw [hf] at h1
      simp only [dispStep, hf] at hc
      simp [h1 rfl] at hc
    · simp only [dispStep, hf] at hc
      split_ifs at hc <;> simp_all
    · rw [hf] at h2
      simp only [dispStep, hf] at hc
      split_ifs at hc <;> simp_all [(h2 rfl).1]
    · rw [hf] at h3
      simp only [dispStep, hf] at hc
      split_ifs at hc with ha hb
      · simp [h3 rfl] at hc
      · simp [h3 rfl] at hc
      · refine ⟨rfl, ?_, ?_⟩
        · cases hre2 : s.readEn
          · exact absurd hre2 ha
          · rfl
        · omega
    · rw [hf] at h4
      rw [dispStep_error P s i hf] at hc
      simp [(h4 rfl).1] at hc
  · intro hps hbad ins
    rw [hps] at h2
    have hstep : dispStep P s i = { s with fsm := .ERROR, dispatcherror := true } := by
      simp [dispStep, hps, hbad]
    rw [hstep, dispRun_error P _ rfl ins]
    exact (h2 rfl).1

/-- Witness for C10 at a concrete reachable PARSEHEAD state with a bad
opcode. -/
theorem C10_commit_needs_full_load_witness :
    ((dispStep dP c3s2 dBad).readCommit = true →
      c3s2.fsm = .MOVE_POLYNOMAL ∧ c3s2.readEn = true ∧
      c3s2.coeffcnt = numCoeffs dP) ∧
    (c3s2.fsm = .PARSEHEAD → dBad.readData % 256 ≠ dP.moveOpcode →
      ∀ ins : List DispInput,
        (dispRun dP (dispStep dP c3s2 dBad) ins).readCommit = false) :=
  C10_commit_needs_full_load dP c3s2 c3s2_reach dBad

/-! ## C2: multi-word writes commit atomically

Helper facts about signal widths, then a lemma describing the three
clock ticks that deliver one WRITE payload word, then the induction
over a word sequence. -/

lemma lt_two_pow_bitsForAux : ∀ fuel n : Nat, n ≤ fuel → n < 2 ^ bitsForAux fuel n
  | 0, n, h => by
      have h0 : n = 0 := Nat.le_zero.mp h
      subst h0
      simp [bitsForAux]
  | fuel + 1, n, h => by
      by_cases h0 : n = 0
      · simp [bitsForAux, h0]
      · have hh : n / 2 ≤ fuel := by omega
        have ih := lt_two_pow_bitsForAux fuel (n / 2) hh
        simp only [bitsForAux, h0, if_false]
        rw [pow_succ]
        omega

lemma lt_two_pow_bitsFor (n : Nat) : n < 2 ^ bitsFor n :=
  lt_two_pow_bitsForAux n n le_rfl

/-- The parser is idle in WAIT_COMMAND between instruction words: FULL
bit clear, no write pulse pending. -/
def midWC (s : ParserState) : Prop :=
  s.fsm = .WAIT_COMMAND ∧ s.stateFull = false ∧ s.writeEn = false ∧
  s.writeCommit = false

lemma parserStep_cmdWrite (P : Platform) (sp : Nat) (s : ParserState)
    (hwpi : wordsPerInstr P ≤ sp) (hf : s.fsm = .WAIT_COMMAND)
    (hsf : s.stateFull = false) :
    parserStep P s (cmdIn .WRITE sp) =
      { s with
        stateParsing := s.execute,
        stateFull := false,
        stateDispatchError := false,
        writeCommit := false,
        wordToSend := (replyWord s 0 : Int),
        fsm := .WAIT_WORD } := by
  have hd : decide (sp < wordsPerInstr P) = false :=
    decide_eq_false (Nat.not_lt.mpr hwpi)
  simp [parserStep, cmdIn, baseIn, hf, hsf, hd]

lemma parserStep_word (P : Platform) (sp w : Nat) (s : ParserState)
    (hwpi : wordsPerInstr P ≤ sp) (hf : s.fsm = .WAIT_WORD) :
    parserStep P s (wordIn w sp) =
      { s with
        stateParsing := s.execute,
        stateFull := false,
        stateDispatchError := false,
        writeEn := true,
        bytesreceived := (s.bytesreceived + P.wordBytes) % 2 ^ bitsFor P.bytesinmove,
        writeData := w,
        fsm := .WRITE } := by
  have hd : decide (sp < wordsPerInstr P) = false :=
    decide_eq_false (Nat.not_lt.mpr hwpi)
  simp [parserStep, wordIn, baseIn, hf, hd]

lemma parserStep_writeState (P : Platform) (sp : Nat) (s : ParserState)
    (hwpi : wordsPerInstr P ≤ sp) (hf : s.fsm = .WRITE) :
    parserStep P s (baseIn sp) =
      (if P.bytesinmove ≤ s.bytesreceived then
        { s with
          stateParsing := s.execute, stateFull := false,
          stateDispatchError := false, writeEn := false,
          bytesreceived := 0, writeCommit := true, fsm := .WAIT_COMMAND }
      else
        { s with
          stateParsing := s.execute, stateFull := false,
          stateDispatchError := false, writeEn := false,
          fsm := .WAIT_COMMAND }) := by
  have hd : decide (sp < wordsPerInstr P) = false :=
    decide_eq_false (Nat.not_lt.mpr hwpi)
  simp only [parserStep, baseIn, hf, hd]

lemma pfRun_append (P : Platform) (pf : ParserState × Fifo)
    (xs ys : List ParserInput) :
    pfRun P pf (xs ++ ys) = pfRun P (pfRun P pf xs) ys :=
  List.foldl_append _ _ _ _

lemma pfTrace_append (P : Platform) (pf : ParserState × Fifo)
    (xs ys : List ParserInput) :
    pfTrace P pf (xs ++ ys) = pfTrace P pf xs ++ pfTrace P (pfRun P pf xs) ys := by
  induction xs generalizing pf with
  | nil => rfl
  | cons x xs ih =>
      show pfStep P pf x :: pfTrace P (pfStep P pf x) (xs ++ ys) = _
      rw [ih]
      rfl

/-- The three ticks delivering one WRITE payload word `w` from an idle
WAIT_COMMAND state: the word is staged into the FIFO, no commit pulse
occurs on the first two ticks, and on the third tick the commit pulse
rises exactly if the byte counter has reached `bytesinmove` (in which
case it resets to 0). -/
lemma feedWord3 (P : Platform) (sp w : Nat) (s : ParserState) (f : Fifo)
    (hwpi : wordsPerInstr P ≤ sp) (hmid : midWC s)
    (hle : s.bytesreceived + P.wordBytes ≤ P.bytesinmove) :
    ∃ s3 : ParserState,
      pfRun P (s, f) [cmdIn .WRITE sp, wordIn w sp, baseIn sp] =
        (s3, { f with staged := f.staged ++ [w] }) ∧
      s3.fsm = .WAIT_COMMAND ∧ s3.stateFull = false ∧ s3.writeEn = false ∧
      (s.bytesreceived + P.wordBytes < P.bytesinmove →
        s3.writeCommit = false ∧
        s3.bytesreceived = s.bytesreceived + P.wordBytes) ∧
      (s.bytesreceived + P.wordBytes = P.bytesinmove →
        s3.writeCommit = true ∧ s3.bytesreceived = 0) ∧
      pfTrace P (s, f) [cmdIn .WRITE sp, wordIn w sp, baseIn sp] =
        [(parserStep P s (cmdIn .WRITE sp), f),
         (parserStep P (parserStep P s (cmdIn .WRITE sp)) (wordIn w sp), f),
         (s3, { f with staged := f.staged ++ [w] })] ∧
      (parserStep P s (cmdIn .WRITE sp)).writeCommit = false ∧
      (parserStep P (parserStep P s (cmdIn .WRITE sp)) (wordIn w sp)).writeCommit =
        false := by
  obtain ⟨hf, hsf, hen, hcm⟩ := hmid
  have e1 := parserStep_cmdWrite P sp s hwpi hf hsf
  have hfsm1 : (parserStep P s (cmdIn .WRITE sp)).fsm = .WAIT_WORD := by rw [e1]
  have hen1 : (parserStep P s (cmdIn .WRITE sp)).writeEn = false := by rw [e1]; exact hen
  have hcm1 : (parserStep P s (cmdIn .WRITE sp)).writeCommit = false := by rw [e1]
  have hby1 : (parserStep P s (cmdIn .WRITE sp)).bytesreceived = s.bytesreceived := by
    rw [e1]
  have e2 := parserStep_word P sp w (parserStep P s (cmdIn .WRITE sp)) hwpi hfsm1
  have hmod : (s.bytesreceived + P.wordBytes) % 2 ^ bitsFor P.bytesinmove =
      s.bytesreceived + P.wordBytes :=
    Nat.mod_eq_of_lt (lt_of_le_of_lt hle (lt_two_pow_bitsFor _))
  have hfsm2 :
      (parserStep P (parserStep P s (cmdIn .WRITE sp)) (wordIn w sp)).fsm = .WRITE := by
    rw [e2]
  have hen2 :
      (parserStep P (parserStep P s (cmdIn .WRITE sp)) (wordIn w sp)).writeEn = true := by
    rw [e2]
  have hcm2 :
      (parserStep P (parserStep P s (cmdIn .WRITE sp)) (wordIn w sp)).writeCommit =
        false := by
    rw [e2]; exact hcm1
  have hwd2 :
      (parserStep P (parserStep P s (cmdIn .WRITE sp)) (wordIn w sp)).writeData = w := by
    rw [e2]
  have hby2 :
      (parserStep P (parserStep P s (cmdIn .WRITE sp)) (wordIn w sp)).bytesreceived =
        s.bytesreceived + P.wordBytes := by
    rw [e2]
    show ((parserStep P s (cmdIn .WRITE sp)).bytesreceived + P.wordBytes) %
        2 ^ bitsFor P.bytesinmove = _
    rw [hby1, hmod]
  have e3 := parserStep_writeState P sp
    (parserStep P (parserStep P s (cmdIn .WRITE sp)) (wordIn w sp)) hwpi hfsm2
  refine ⟨parserStep P (parserStep P (parserStep P s (cmdIn .WRITE sp)) (wordIn w sp))
      (baseIn sp), ?_, ?_, ?_, ?_, ?_, ?_, ?_, hcm1, hcm2⟩
  · show (parserStep P (parserStep P (parserStep P s (cmdIn .WRITE sp)) (wordIn w sp))
        (baseIn sp),
      fifoWriteStep
        (fifoWriteStep (fifoWriteStep f s.writeEn s.writeData s.writeCommit)
          (parserStep P s (cmdIn .WRITE sp)).writeEn
          (parserStep P s (cmdIn .WRITE sp)).writeData
          (parserStep P s (cmdIn .WRITE sp)).writeCommit)
        (parserStep P (parserStep P s (cmdIn .WRITE sp)) (wordIn w sp)).writeEn
        (parserStep P (parserStep P s (cmdIn .WRITE sp)) (wordIn w sp)).writeData
        (parserStep P (parserStep P s (cmdIn .WRITE sp)) (wordIn w sp)).writeCommit) = _
    rw [hen, hcm, hen1, hcm1, hen2, hcm2, hwd2]
    simp [fifoWriteStep]
  · rw [e3]; split <;> rfl
  · rw [e3]; split <;> rfl
  · rw [e3]; split <;> rfl
  · intro hlt
    have hnot : ¬ P.bytesinmove ≤
        (parserStep P (parserStep P s (cmdIn .WRITE sp)) (wordIn w sp)).bytesreceived := by
      rw [hby2]; omega
    rw [e3, if_neg hnot]
    exact ⟨hcm2, hby2⟩
  · intro heq
    have hyes : P.bytesinmove ≤
        (parserStep P (parserStep P s (cmdIn .WRITE sp)) (wordIn w sp)).bytesreceived := by
      rw [hby2]; omega
    rw [e3, if_pos hyes]
    exact ⟨rfl, rfl⟩
  · show (parserStep P s (cmdIn .WRITE sp),
        fifoWriteStep f s.writeEn s.writeData s.writeCommit) ::
      (parserStep P (parserStep P s (cmdIn .WRITE sp)) (wordIn w sp),
        fifoWriteStep (fifoWriteStep f s.writeEn s.writeData s.writeCommit)
          (parserStep P s (cmdIn .WRITE sp)).writeEn
          (parserStep P s (cmdIn .WRITE sp)).writeData
          (parserStep P s (cmdIn .WRITE sp)).writeCommit) ::
      (parserStep P (parserStep P (parserStep P s (cmdIn .WRITE sp)) (wordIn w sp))
          (baseIn sp),
        fifoWriteStep
          (fifoWriteStep (fifoWriteStep f s.writeEn s.writeData s.writeCommit)
            (parserStep P s (cmdIn .WRITE sp)).writeEn
            (parserStep P s (cmdIn .WRITE sp)).writeData
            (parserStep P s (cmdIn .WRITE sp)).writeCommit)
          (parserStep P (parserStep P s (cmdIn .WRITE sp)) (wordIn w sp)).writeEn
          (parserStep P (parserStep P s (cmdIn .WRITE sp)) (wordIn w sp)).writeData
          (parserStep P (parserStep P s (cmdIn .WRITE sp)) (wordIn w sp)).writeCommit) ::
      [] = _
    rw [hen, hcm, hen1, hcm1, hen2, hcm2, hwd2]
    simp [fifoWriteStep]

lemma ticksFor_append (sp : Nat) : ∀ xs ys : List Nat,
    ticksFor sp (xs ++ ys) = ticksFor sp xs ++ ticksFor sp ys
  | [], _ => rfl
  | x :: xs, ys => by
      show cmdIn .WRITE sp :: wordIn x sp :: baseIn sp :: ticksFor sp (xs ++ ys) = _
      rw [ticksFor_append sp xs ys]
      rfl

/-- Accepting a sequence of payload words whose total byte count stays
strictly below `bytesinmove` never raises the commit pulse, leaves the
committed FIFO content unchanged, stages exactly the words, and leaves
the byte counter at the running total. -/
lemma runWords_spec (P : Platform) (sp : Nat) (hwpi : wordsPerInstr P ≤ sp) :
    ∀ (ws : List Nat) (s : ParserState) (f : Fifo) (k : Nat),
      midWC s → s.bytesreceived = k * P.wordBytes →
      (k + ws.length) * P.wordBytes < P.bytesinmove →
      (∀ st ∈ pfTrace P (s, f) (ticksFor sp ws),
          st.1.writeCommit = false ∧ st.2.committed = f.committed) ∧
      midWC (pfRun P (s, f) (ticksFor sp ws)).1 ∧
      (pfRun P (s, f) (ticksFor sp ws)).1.bytesreceived =
        (k + ws.length) * P.wordBytes ∧
      (pfRun P (s, f) (ticksFor sp ws)).2.committed = f.committed ∧
      (pfRun P (s, f) (ticksFor sp ws)).2.staged = f.staged ++ ws
  | [], s, f, k, hmid, hk, _ => by
      refine ⟨?_, hmid, ?_, rfl, by show f.staged = f.staged ++ []; simp⟩
      · intro st hst
        exact absurd hst (List.not_mem_nil st)
      · simpa using hk
  | w :: ws, s, f, k, hmid, hk, hbound => by
      have hsucc : (k + (w :: ws).length) * P.wordBytes =
          (k + 1 + ws.length) * P.wordBytes := by
        rw [List.length_cons]
        ring_nf
      have hlt1 : s.bytesreceived + P.wordBytes < P.bytesinmove := by
        rw [hk]
        have h1 : (k + 1) * P.wordBytes ≤ (k + (w :: ws).length) * P.wordBytes :=
          mul_le_mul_right' (by simp) P.wordBytes
        have h2 : k * P.wordBytes + P.wordBytes = (k + 1) * P.wordBytes := by ring
        omega
      obtain ⟨s3, hrun3, hf3, hsf3, hen3, hstrict, -, htr3, hcm1, hcm2⟩ :=
        feedWord3 P sp w s f hwpi hmid (le_of_lt hlt1)
      obtain ⟨hcm3, hby3⟩ := hstrict hlt1
      have hmid3 : midWC s3 := ⟨hf3, hsf3, hen3, hcm3⟩
      have hk3 : s3.bytesreceived = (k + 1) * P.wordBytes := by
        rw [hby3, hk]
        ring
      have hbound3 : (k + 1 + ws.length) * P.wordBytes < P.bytesinmove :=
        hsucc ▸ hbound
      obtain ⟨ihtrace, ihmid, ihby, ihcom, ihstg⟩ :=
        runWords_spec P sp hwpi ws s3 { f with staged := f.staged ++ [w] } (k + 1)
          hmid3 hk3 hbound3
      have hsplit : ticksFor sp (w :: ws) =
          [cmdIn .WRITE sp, wordIn w sp, baseIn sp] ++ ticksFor sp ws := rfl
      have hrun : pfRun P (s, f) (ticksFor sp (w :: ws)) =
          pfRun P (s3, { f with staged := f.staged ++ [w] }) (ticksFor sp ws) := by
        rw [hsplit, pfRun_append, hrun3]
      have htrace : pfTrace P (s, f) (ticksFor sp (w :: ws)) =
          [(parserStep P s (cmdIn .WRITE sp), f),
           (parserStep P (parserStep P s (cmdIn .WRITE sp)) (wordIn w sp), f),
           (s3, { f with staged := f.staged ++ [w] })] ++
          pfTrace P (s3, { f with staged := f.staged ++ [w] })
            (ticksFor sp ws) := by
        rw [hsplit, pfTrace_append, htr3, hrun3]
      refine ⟨?_, ?_, ?_, ?_, ?_⟩
      · intro st hst
        rw [htrace] at hst
        simp only [List.mem_append, List.mem_cons, List.not_mem_nil, or_false] at hst
        rcases hst with (rfl | rfl | rfl) | h
        · exact ⟨hcm1, rfl⟩
        · exact ⟨hcm2, rfl⟩
        · exact ⟨hcm3, rfl⟩
        · exact ihtrace st h
      · rw [hrun]
        exact ihmid
      · rw [hrun, ihby]
        exact hsucc.symm
      · rw [hrun]
        exact ihcom
      · rw [hrun, ihstg]
        simp

/-- C2: for a sequence of accepted WRITE payload words strictly
shorter than one full instruction, no commit pulse is ever raised and
the FIFO's committed content is unchanged (the words are only staged);
and when the byte counter reaches exactly `bytesinmove`, the commit
pulse rises on that word's WRITE tick, the counter resets to 0, and the
whole instruction becomes committed atomically. -/
theorem C2_sub_instruction_never_commits (P : Platform) (sp : Nat)
    (s : ParserState) (f : Fifo) (ws : List Nat)
    (hwpi : wordsPerInstr P ≤ sp) (hWB : 0 < P.wordBytes)
    (hfsm : s.fsm = .WAIT_COMMAND) (hsf : s.stateFull = false)
    (hen : s.writeEn = false) (hcm : s.writeCommit = false)
    (hb0 : s.bytesreceived = 0) :
    (ws.length * P.wordBytes < P.bytesinmove →
      (∀ st ∈ pfTrace P (s, f) (ticksFor sp ws),
          st.1.writeCommit = false ∧ st.2.committed = f.committed) ∧
      (pfRun P (s, f) (ticksFor sp ws)).1.bytesreceived =
        ws.length * P.wordBytes ∧
      (pfRun P (s, f) (ticksFor sp ws)).2.committed = f.committed) ∧
    (ws.length * P.wordBytes = P.bytesinmove → ws ≠ [] →
      (pfRun P (s, f) (ticksFor sp ws)).1.writeCommit = true ∧
      (pfRun P (s, f) (ticksFor sp ws)).1.bytesreceived = 0 ∧
      (pfStep P (pfRun P (s, f) (ticksFor sp ws)) (baseIn sp)).2.committed =
        f.committed ++ (f.staged ++ ws) ∧
      (pfStep P (pfRun P (s, f) (ticksFor sp ws)) (baseIn sp)).2.staged = []) := by
  have hmid : midWC s := ⟨hfsm, hsf, hen, hcm⟩
  constructor
  · intro hlt
    obtain ⟨htr, -, hby, hcom, -⟩ :=
      runWords_spec P sp hwpi ws s f 0 hmid (by simpa using hb0)
        (by simpa using hlt)
    exact ⟨htr, by simpa using hby, hcom⟩
  · intro heq hne
    rcases List.eq_nil_or_concat ws with rfl | ⟨ws', w, rfl⟩
    · exact absurd rfl hne
    simp only [List.concat_eq_append] at heq ⊢
    have hlen : (ws'.length + 1) * P.wordBytes = P.bytesinmove := by
      simpa using heq
    have hlt' : (0 + ws'.length) * P.wordBytes < P.bytesinmove := by
      have h2 : (ws'.length + 1) * P.wordBytes =
          ws'.length * P.wordBytes + P.wordBytes := by ring
      simp only [Nat.zero_add]
      omega
    obtain ⟨-, hmid', hby', hcom', hstg'⟩ :=
      runWords_spec P sp hwpi ws' s f 0 hmid (by simpa using hb0) hlt'
    have hle3 : (pfRun P (s, f) (ticksFor sp ws')).1.bytesreceived +
        P.wordBytes ≤ P.bytesinmove := by
      rw [hby']
      have h2 : (ws'.length + 1) * P.wordBytes =
          ws'.length * P.wordBytes + P.wordBytes := by ring
      simp only [Nat.zero_add]
      omega
    obtain ⟨s3, hrun3, -, -, hen3, -, hexact, -, -, -⟩ :=
      feedWord3 P sp w (pfRun P (s, f) (ticksFor sp ws')).1
        (pfRun P (s, f) (ticksFor sp ws')).2 hwpi hmid' hle3
    obtain ⟨hcmT, hbyT⟩ := hexact (by
      rw [hby']
      have h2 : (ws'.length + 1) * P.wordBytes =
          ws'.length * P.wordBytes + P.wordBytes := by ring
      simp only [Nat.zero_add]
      omega)
    have hrun3' : pfRun P (pfRun P (s, f) (ticksFor sp ws'))
        [cmdIn .WRITE sp, wordIn w sp, baseIn sp] =
        (s3, { (pfRun P (s, f) (ticksFor sp ws')).2 with
               staged := (pfRun P (s, f) (ticksFor sp ws')).2.staged ++ [w] }) :=
      hrun3
    have hrunfull : pfRun P (s, f) (ticksFor sp (ws' ++ [w])) =
        (s3, { (pfRun P (s, f) (ticksFor sp ws')).2 with
               staged := (pfRun P (s, f) (ticksFor sp ws')).2.staged ++ [w] }) := by
      rw [ticksFor_append, pfRun_append]
      exact hrun3'
    rw [hrunfull]
    refine ⟨hcmT, hbyT, ?_, ?_⟩
    · show (fifoWriteStep
          { (pfRun P (s, f) (ticksFor sp ws')).2 with
            staged := (pfRun P (s, f) (ticksFor sp ws')).2.staged ++ [w] }
          s3.writeEn s3.writeData s3.writeCommit).committed = _
      rw [hen3, hcmT]
      simp [fifoWriteStep, hcom', hstg']
    · show (fifoWriteStep
          { (pfRun P (s, f) (ticksFor sp ws')).2 with
            staged := (pfRun P (s, f) (ticksFor sp ws')).2.staged ++ [w] }
          s3.writeEn s3.writeData s3.writeCommit).staged = _
      rw [hen3, hcmT]
      simp [fifoWriteStep]

/-- Concrete initial parser state and FIFO for the C2 witness. -/
def c2Start : ParserState := { parserReset with fsm := .WAIT_COMMAND }

def c2Fifo : Fifo := ⟨[], []⟩

/-- Witness for C2 on the concrete platform (4-byte words, 8 bytes per
instruction): two payload words make exactly one instruction. -/
theorem C2_sub_instruction_never_commits_witness :
    (([10, 20] : List Nat).length * testPlatform.wordBytes <
        testPlatform.bytesinmove →
      (∀ st ∈ pfTrace testPlatform (c2Start, c2Fifo) (ticksFor 2 [10, 20]),
          st.1.writeCommit = false ∧ st.2.committed = c2Fifo.committed) ∧
      (pfRun testPlatform (c2Start, c2Fifo) (ticksFor 2 [10, 20])).1.bytesreceived =
        ([10, 20] : List Nat).length * testPlatform.wordBytes ∧
      (pfRun testPlatform (c2Start, c2Fifo) (ticksFor 2 [10, 20])).2.committed =
        c2Fifo.committed) ∧
    (([10, 20] : List Nat).length * testPlatform.wordBytes =
        testPlatform.bytesinmove → ([10, 20] : List Nat) ≠ [] →
      (pfRun testPlatform (c2Start, c2Fifo) (ticksFor 2 [10, 20])).1.writeCommit =
        true ∧
      (pfRun testPlatform (c2Start, c2Fifo) (ticksFor 2 [10, 20])).1.bytesreceived =
        0 ∧
      (pfStep testPlatform (pfRun testPlatform (c2Start, c2Fifo) (ticksFor 2 [10, 20]))
          (baseIn 2)).2.committed = c2Fifo.committed ++ (c2Fifo.staged ++ [10, 20]) ∧
      (pfStep testPlatform (pfRun testPlatform (c2Start, c2Fifo) (ticksFor 2 [10, 20]))
          (baseIn 2)).2.staged = []) :=
  C2_sub_instruction_never_commits testPlatform 2 c2Start c2Fifo [10, 20]
    (by decide) (by decide) rfl rfl rfl rfl rfl

/-! ## C5: WRITE acceptance and back-pressure -/

def c5State : ParserState := { parserReset with fsm := .WAIT_COMMAND }

/-- C5: a WRITE command received in WAIT_COMMAND is accepted (the
parser proceeds to WAIT_WORD, and on the payload word's arrival
enqueues it with a one-tick write-enable pulse) when the FULL status
bit is clear or the bytes-received counter is nonzero; otherwise the
word is silently dropped: the parser remains in WAIT_COMMAND with all
its registers unchanged (no flag raised, no error state entered). -/
theorem C5_write_backpressure (P : Platform) (s : ParserState)
    (i i2 i3 : ParserInput)
    (hf : s.fsm = .WAIT_COMMAND) (hr : i.commandReady = true)
    (hc : i.command = .WRITE) :
    ((s.stateFull = false ∨ s.bytesreceived ≠ 0) →
      (parserStep P s i).fsm = .WAIT_WORD ∧
      (i2.wordComplete = true →
        (parserStep P (parserStep P s i) i2).writeEn = true ∧
        (parserStep P (parserStep P s i) i2).writeData = i2.wordReceived ∧
        (parserStep P (parserStep P s i) i2).fsm = .WRITE ∧
        (parserStep P (parserStep P (parserStep P s i) i2) i3).writeEn = false)) ∧
    (s.stateFull = true ∧ s.bytesreceived = 0 →
      (parserStep P s i).fsm = .WAIT_COMMAND ∧
      (parserStep P s i).bytesreceived = s.bytesreceived ∧
      (parserStep P s i).execute = s.execute ∧
      (parserStep P s i).mtrcntr = s.mtrcntr ∧
      (parserStep P s i).writeEn = s.writeEn ∧
      (parserStep P s i).writeData = s.writeData ∧
      (parserStep P s i).writeCommit = false) := by
  constructor
  · intro hacc
    have hfsm1 : (parserStep P s i).fsm = .WAIT_WORD := by
      rcases hacc with h | h <;> simp [parserStep, hf, hr, hc, h]
    refine ⟨hfsm1, ?_⟩
    intro hw
    generalize hg1 : parserStep P s i = s1 at hfsm1 ⊢
    have e2 : parserStep P s1 i2 =
        { s1 with
          stateParsing := s1.execute,
          stateFull := decide (i2.spaceAvailable < wordsPerInstr P),
          stateDispatchError := i2.dispatcherror,
          writeEn := true,
          bytesreceived := (s1.bytesreceived + P.wordBytes) % 2 ^ bitsFor P.bytesinmove,
          writeData := i2.wordReceived,
          fsm := .WRITE } := by
      simp [parserStep, hfsm1, hw]
    rw [e2]
    refine ⟨rfl, rfl, rfl, ?_⟩
    simp only [parserStep]
    split <;> rfl
  · rintro ⟨h1, h0⟩
    simp [parserStep, hf, hr, hc, h1, h0]

/-- Witness for C5: accepted path from a concrete fresh parser state
(FULL clear), and the drop path from a concrete FULL state with no
instruction in flight. -/
theorem C5_write_backpressure_witness :
    ((c5State.stateFull = false ∨ c5State.bytesreceived ≠ 0) →
      (parserStep testPlatform c5State (cmdIn .WRITE 9)).fsm = .WAIT_WORD ∧
      ((wordIn 5 9).wordComplete = true →
        (parserStep testPlatform (parserStep testPlatform c5State (cmdIn .WRITE 9))
            (wordIn 5 9)).writeEn = true ∧
        (parserStep testPlatform (parserStep testPlatform c5State (cmdIn .WRITE 9))
            (wordIn 5 9)).writeData = (wordIn 5 9).wordReceived ∧
        (parserStep testPlatform (parserStep testPlatform c5State (cmdIn .WRITE 9))
            (wordIn 5 9)).fsm = .WRITE ∧
        (parserStep testPlatform
            (parserStep testPlatform (parserStep testPlatform c5State (cmdIn .WRITE 9))
              (wordIn 5 9)) (baseIn 9)).writeEn = false)) ∧
    (c5State.stateFull = true ∧ c5State.bytesreceived = 0 →
      (parserStep testPlatform c5State (cmdIn .WRITE 9)).fsm = .WAIT_COMMAND ∧
      (parserStep testPlatform c5State (cmdIn .WRITE 9)).bytesreceived =
        c5State.bytesreceived ∧
      (parserStep testPlatform c5State (cmdIn .WRITE 9)).execute = c5State.execute ∧
      (parserStep testPlatform c5State (cmdIn .WRITE 9)).mtrcntr = c5State.mtrcntr ∧
      (parserStep testPlatform c5State (cmdIn .WRITE 9)).writeEn = c5State.writeEn ∧
      (parserStep testPlatform c5State (cmdIn .WRITE 9)).writeData =
        c5State.writeData ∧
      (parserStep testPlatform c5State (cmdIn .WRITE 9)).writeCommit = false) :=
  C5_write_backpressure testPlatform c5State (cmdIn .WRITE 9) (wordIn 5 9)
    (baseIn 9) rfl rfl rfl

end FPGAG
